import Mathlib

/-!
Verification of the guillotine cutting-plan engine
(`src/optimizer/guillotine.py` with the data model of
`src/optimizer/models.py`).

Python floats are embedded as `ℚ` (all arithmetic in the engine is
+, -, *, / and comparisons), Python ints as `ℤ`, Python strings as
`String`.  Python dicts keyed by strings are embedded as association
lists with in-place replacement on insert, mirroring dict update
semantics; only lookup, update and a universally quantified scan of
the values are used by the engine, so iteration-order details beyond
first-insertion position do not matter.  The `while` loop of the
engine is embedded with an explicit fuel parameter; every loop
iteration that continues strictly decreases the total outstanding
demand, so the fuel `totalDemand + 1` supplied at each call is never
exhausted.
-/

namespace Guillotine

set_option allowUnsafeReducibility true

attribute [local semireducible] Rat.mul Rat.add Rat.sub Rat.inv

/-- `Dimension3D` from `src/optimizer/models.py`. -/
structure Dimension3D where
  length_mm : ℚ
  width_mm : ℚ
  thickness_mm : ℚ
deriving DecidableEq, Repr

/-- `Tolerance` from `src/optimizer/models.py`. -/
structure Tolerance where
  length_mm : ℚ := 0
  width_mm : ℚ := 0
  thickness_mm : ℚ := 0
deriving DecidableEq, Repr

/-- `Tolerance.within` from `src/optimizer/models.py`: per-axis
`actual >= required - tolerance`, all three axes. -/
def Tolerance.within (t : Tolerance) (required actual : Dimension3D) : Bool :=
  decide (actual.length_mm ≥ required.length_mm - t.length_mm) &&
  decide (actual.width_mm ≥ required.width_mm - t.width_mm) &&
  decide (actual.thickness_mm ≥ required.thickness_mm - t.thickness_mm)

/-- `InventoryItem` from `src/optimizer/models.py` (a plain dataclass:
construction performs no validation). -/
structure InventoryItem where
  name : String
  dimensions_mm : Dimension3D
  quantity : ℤ
  cost_per_unit : Option ℚ := none
  material : Option String := none
deriving DecidableEq, Repr

/-- `PartRequirement` from `src/optimizer/models.py` (a plain dataclass:
construction performs no validation). -/
structure PartRequirement where
  key : String
  name : String
  material : String
  required_dimensions_mm : Dimension3D
  quantity_total : ℤ
  allow_rotation_length_width : Bool := false
  allow_rotation_width_thickness : Bool := false
  allow_rotation_length_thickness : Bool := false
  enforce_grain_along_length : Bool := true
  priority : ℤ := 0
deriving DecidableEq, Repr

/-- `CuttingParameters` from `src/optimizer/models.py`. -/
structure CuttingParameters where
  kerf_mm : ℚ
  min_offcut_keep_mm : ℚ := 0
  tolerance : Tolerance := {}
  optimization_priority : String := "efficiency"
deriving DecidableEq, Repr

/-- `CutPiece` from `src/optimizer/models.py`. -/
structure CutPiece where
  part_key : String
  dims_mm : Dimension3D
  position_mm : ℚ × ℚ × ℚ
  color : String
deriving DecidableEq, Repr

/-- `Offcut` from `src/optimizer/models.py`. -/
structure Offcut where
  dims_mm : Dimension3D
  position_mm : ℚ × ℚ × ℚ
deriving DecidableEq, Repr

/-- `LengthSegmentPlan` from `src/optimizer/guillotine.py`. -/
structure LengthSegmentPlan where
  start_mm : ℚ
  end_mm : ℚ
  cuts : List CutPiece := []
  offcuts : List Offcut := []
deriving DecidableEq, Repr

/-- `StickPlan` from `src/optimizer/guillotine.py`. -/
structure StickPlan where
  inventory_name : String
  stick_index : ℤ
  dims_mm : Dimension3D
  segments : List LengthSegmentPlan := []
deriving DecidableEq, Repr

/-- `OptimizationResult` from `src/optimizer/guillotine.py`.
`summary_by_part` is the Python dict `key ↦ {produced, requested}`,
embedded as an association list `key ↦ (produced, requested)`; the
Python code stores the two integer counts as floats, which is exact,
so they are kept as `ℤ` here. -/
structure OptimizationResult where
  stick_plans : List StickPlan
  utilization_percent : ℚ
  waste_percent : ℚ
  total_cuts : ℕ
  summary_by_part : List (String × ℤ × ℤ)
deriving DecidableEq, Repr

/-- Python dict assignment `d[k] = v`: replace in place if the key is
present, otherwise append. -/
def dictInsert {α : Type} (d : List (String × α)) (k : String) (v : α) :
    List (String × α) :=
  match d with
  | [] => [(k, v)]
  | (k1, v1) :: rest =>
      if k1 = k then (k, v) :: rest else (k1, v1) :: dictInsert rest k v

/-- Python `d.get(k, v0)`. -/
def dictGetD {α : Type} (d : List (String × α)) (k : String) (v0 : α) : α :=
  match d with
  | [] => v0
  | (k1, v1) :: rest => if k1 = k then v1 else dictGetD rest k v0

/-- ASCII lowercasing of one character, the effect of Python's
`str.lower` on the ASCII part names this code base uses. -/
def lowerChar (c : Char) : Char :=
  if 65 ≤ c.toNat ∧ c.toNat ≤ 90 then Char.ofNat (c.toNat + 32) else c

/-- Python's `str.lower`, embedded structurally over the string's
characters. -/
def pyLower (s : String) : String := ⟨s.data.map lowerChar⟩

/-- Python's `<=` on strings: lexicographic comparison of the
character sequences by code point. -/
def pyStrLe : List Char → List Char → Bool
  | [], _ => true
  | _ :: _, [] => false
  | c :: cs, d :: ds =>
      if c.toNat < d.toNat then true
      else if d.toNat < c.toNat then false
      else pyStrLe cs ds

/-- `PART_COLOR_MAP` from `src/optimizer/guillotine.py`. -/
def PART_COLOR_MAP : List (String × String) :=
  [("plank", "#4CAF50"), ("stringer", "#2196F3"),
   ("block", "#FF9800"), ("runner", "#9C27B0")]

/-- `_choose_color` from `src/optimizer/guillotine.py`. -/
def choose_color (part : PartRequirement) : String :=
  dictGetD PART_COLOR_MAP (pyLower part.name) "#607D8B"

/-- `_fits` from `src/optimizer/guillotine.py`. -/
def fits (required available : Dimension3D) (tol : Tolerance) : Bool :=
  tol.within required available

/-- Insertion into a sorted list, placing `x` before the first element
`y` with `le x y`; together with `stableSort` this implements Python's
stable `sorted` for the total preorder `le`. -/
def insertSorted {α : Type} (le : α → α → Bool) (x : α) : List α → List α
  | [] => [x]
  | y :: ys => if le x y then x :: y :: ys else y :: insertSorted le x ys

/-- Stable sort by the total preorder `le` (insertion sort), embedding
Python's `sorted`. -/
def stableSort {α : Type} (le : α → α → Bool) : List α → List α
  | [] => []
  | x :: xs => insertSorted le x (stableSort le xs)

/-- The comparison used at `sorted(required_parts, key=lambda p:
(-p.priority, p.name))` in `src/optimizer/guillotine.py`: lexicographic
on the pair (negated priority, name). -/
def sortLE (p q : PartRequirement) : Bool :=
  decide (q.priority < p.priority) ||
  (decide (p.priority = q.priority) && pyStrLe p.name.data q.name.data)

/-- The processing order of the engine:
`sorted(required_parts, key=lambda p: (-p.priority, p.name))`. -/
def demandOrder (required_parts : List PartRequirement) : List PartRequirement :=
  stableSort sortLE required_parts

/-- Deduplication with a `seen` accumulator, as in the `unique` /
`seen` loop inside `candidate_dims`. -/
def dedupSeen (seen : List Dimension3D) : List Dimension3D → List Dimension3D
  | [] => []
  | d :: ds => if d ∈ seen then dedupSeen seen ds
               else d :: dedupSeen (d :: seen) ds

/-- `candidate_dims` from `src/optimizer/guillotine.py`: the identity
orientation, plus width↔thickness if allowed, plus (only when grain is
not enforced) length↔width and length↔thickness if allowed, then
deduplicated keeping first occurrences. -/
def candidate_dims (part : PartRequirement) : List Dimension3D :=
  let req := part.required_dimensions_mm
  let part_len := req.length_mm
  let part_w := req.width_mm
  let part_t := req.thickness_mm
  let dims : List Dimension3D :=
    [⟨part_len, part_w, part_t⟩] ++
    (if part.allow_rotation_width_thickness then [⟨part_len, part_t, part_w⟩] else []) ++
    (if part.enforce_grain_along_length then []
     else
       (if part.allow_rotation_length_width then [⟨part_w, part_len, part_t⟩] else []) ++
       (if part.allow_rotation_length_thickness then [⟨part_t, part_w, part_len⟩] else []))
  dedupSeen [] dims

/-- The acceptance test of one candidate orientation inside the
`for cand in candidate_dims()` loop: not skipped by
`remaining_length + kerf < cand.length`, and `_fits` against the
stock dimensions. -/
def feasibleCand (params : CuttingParameters) (item : InventoryItem)
    (remaining_length : ℚ) (cand : Dimension3D) : Bool :=
  !decide (remaining_length + params.kerf_mm < cand.length_mm) &&
  fits cand item.dimensions_mm params.tolerance

/-- The `picked_dims` selection loop: first candidate orientation that
passes `feasibleCand`. -/
def pickDims (params : CuttingParameters) (item : InventoryItem)
    (remaining_length : ℚ) (part : PartRequirement) : Option Dimension3D :=
  (candidate_dims part).find? (feasibleCand params item remaining_length)

/-- One pass of `for part in sorted(required_parts, ...)`: skip parts
with no remaining demand, pick the first part for which an orientation
is feasible (the loop body `break`s after one placement). -/
def tryPlace (params : CuttingParameters) (item : InventoryItem)
    (remaining_length : ℚ) (required_left : List (String × ℤ)) :
    List PartRequirement → Option (PartRequirement × Dimension3D)
  | [] => none
  | part :: rest =>
      if dictGetD required_left part.key 0 ≤ 0 then
        tryPlace params item remaining_length required_left rest
      else
        match pickDims params item remaining_length part with
        | some d => some (part, d)
        | none => tryPlace params item remaining_length required_left rest

/-- The mutable locals of `optimize_cutting_plan` that survive across
sticks: the remaining-demand dict and the two running totals. -/
structure LoopState where
  required_left : List (String × ℤ)
  total_cut_volume : ℚ
  total_cuts : ℕ
deriving DecidableEq, Repr

/-- `all(qty <= 0 for qty in required_left.values())`. -/
def allDone (required_left : List (String × ℤ)) : Bool :=
  required_left.all (fun kv => decide (kv.2 ≤ 0))

/-- Output of the per-stick `while length_cursor < L` loop. -/
structure StickOut where
  segments : List LengthSegmentPlan
  state : LoopState
  cursor : ℚ
deriving DecidableEq, Repr

/-- The `while length_cursor < L` loop of `optimize_cutting_plan`,
with explicit fuel.  Each iteration appends one segment: either a
placement segment holding one cut (and possibly a width-strip offcut)
after which the loop continues unless all demand is met, or a final
segment with no cut (and possibly a trailing-length offcut) after
which the stick ends. -/
def stickLoop (params : CuttingParameters) (item : InventoryItem)
    (parts_sorted : List PartRequirement) :
    ℕ → ℚ → LoopState → StickOut
  | 0, length_cursor, st => ⟨[], st, length_cursor⟩
  | fuel + 1, length_cursor, st =>
      let L := item.dimensions_mm.length_mm
      if length_cursor < L then
        let remaining_length := L - length_cursor
        match tryPlace params item remaining_length st.required_left parts_sorted with
        | some pd =>
            let part := pd.1
            let picked := pd.2
            let qty_left := dictGetD st.required_left part.key 0
            let cut_piece : CutPiece :=
              ⟨part.key, picked, (length_cursor, 0, 0), choose_color part⟩
            let cursor1 := length_cursor + picked.length_mm + params.kerf_mm
            let rl1 := dictInsert st.required_left part.key (qty_left - 1)
            let width_offcut := item.dimensions_mm.width_mm - picked.width_mm
            let offs : List Offcut :=
              if width_offcut ≥ params.min_offcut_keep_mm then
                [⟨⟨picked.length_mm, width_offcut - params.kerf_mm, picked.thickness_mm⟩,
                  (length_cursor, picked.width_mm + params.kerf_mm, 0)⟩]
              else []
            let segment : LengthSegmentPlan := ⟨length_cursor, cursor1, [cut_piece], offs⟩
            let st1 : LoopState :=
              ⟨rl1,
               st.total_cut_volume +
                 picked.length_mm * picked.width_mm * picked.thickness_mm,
               st.total_cuts + 1⟩
            if allDone rl1 then ⟨[segment], st1, cursor1⟩
            else
              let rest := stickLoop params item parts_sorted fuel cursor1 st1
              ⟨segment :: rest.segments, rest.state, rest.cursor⟩
        | none =>
            let leftover_len := L - length_cursor
            let offs : List Offcut :=
              if leftover_len ≥ params.min_offcut_keep_mm then
                [⟨⟨leftover_len, item.dimensions_mm.width_mm,
                   item.dimensions_mm.thickness_mm⟩, (length_cursor, 0, 0)⟩]
              else []
            ⟨[⟨length_cursor, length_cursor, [], offs⟩], st, length_cursor⟩
      else ⟨[], st, length_cursor⟩

/-- Fuel that dominates the iteration count of the `while` loop: the
total outstanding demand plus one (each continuing iteration places a
piece, which strictly decreases the total outstanding demand). -/
def fuelFor (required_left : List (String × ℤ)) : ℕ :=
  required_left.foldl (fun acc kv => acc + kv.2.toNat) 0 + 1

/-- Volume `l * w * t` of a `Dimension3D`. -/
def dimsVolume (d : Dimension3D) : ℚ :=
  d.length_mm * d.width_mm * d.thickness_mm

/-- Output of the `for i in range(item.quantity)` loop. -/
structure RunOut where
  sticks : List StickPlan
  state : LoopState
  stock_volume : ℚ
deriving DecidableEq, Repr

/-- The `for i in range(item.quantity)` loop of
`optimize_cutting_plan`: one stick per unit of the item, each adding
the item's volume to the consumed-stock total. -/
def runItem (params : CuttingParameters) (parts_sorted : List PartRequirement)
    (item : InventoryItem) : ℕ → ℕ → LoopState → RunOut
  | 0, _, st => ⟨[], st, 0⟩
  | count + 1, i, st =>
      let so := stickLoop params item parts_sorted (fuelFor st.required_left) 0 st
      let stick : StickPlan := ⟨item.name, (i : ℤ) + 1, item.dimensions_mm, so.segments⟩
      let rest := runItem params parts_sorted item count (i + 1) so.state
      ⟨stick :: rest.sticks, rest.state, dimsVolume item.dimensions_mm + rest.stock_volume⟩

/-- The `for item in inventory` loop of `optimize_cutting_plan`,
including the `break` once all demand is satisfied (checked after each
item's sticks are processed). -/
def itemsLoop (params : CuttingParameters) (parts_sorted : List PartRequirement) :
    List InventoryItem → LoopState → RunOut
  | [], st => ⟨[], st, 0⟩
  | item :: rest, st =>
      let ro := runItem params parts_sorted item item.quantity.toNat 0 st
      if allDone ro.state.required_left then ro
      else
        let rr := itemsLoop params parts_sorted rest ro.state
        ⟨ro.sticks ++ rr.sticks, rr.state, ro.stock_volume + rr.stock_volume⟩

/-- The engine run of `optimize_cutting_plan`: initial remaining-demand
dict, sorted demand order, and the two nested loops. -/
def runEngine (inventory : List InventoryItem)
    (required_parts : List PartRequirement) (params : CuttingParameters) : RunOut :=
  let required_left : List (String × ℤ) :=
    required_parts.foldl (fun d p => dictInsert d p.key p.quantity_total) []
  itemsLoop params (demandOrder required_parts) inventory ⟨required_left, 0, 0⟩

/-- `part_by_key = {p.key: p for p in required_parts}`. -/
def partByKey (required_parts : List PartRequirement) : List (String × PartRequirement) :=
  required_parts.foldl (fun d p => dictInsert d p.key p) []

/-- `optimize_cutting_plan` from `src/optimizer/guillotine.py`. -/
def optimize_cutting_plan (inventory : List InventoryItem)
    (required_parts : List PartRequirement) (params : CuttingParameters) :
    OptimizationResult :=
  let ro := runEngine inventory required_parts params
  let utilization_percent : ℚ :=
    if 0 < ro.stock_volume then ro.state.total_cut_volume / ro.stock_volume * 100 else 0
  let waste_percent : ℚ :=
    if 0 < ro.stock_volume then 100 - utilization_percent else 0
  let summary_by_part : List (String × ℤ × ℤ) :=
    (partByKey required_parts).map (fun kv =>
      (kv.1, (kv.2.quantity_total - dictGetD ro.state.required_left kv.1 0,
              kv.2.quantity_total)))
  ⟨ro.sticks, utilization_percent, waste_percent, ro.state.total_cuts, summary_by_part⟩

/-! ### Spec-side definitions and derived measures used by the claims -/

/-- The four axis operations named by the spec's orientation rules:
identity, length↔width swap, width↔thickness swap, length↔thickness
swap. -/
inductive Orientation where
  | ident
  | swapLW
  | swapWT
  | swapLT
deriving DecidableEq, Repr

/-- Apply an orientation to a dimension triple. -/
def Orientation.apply : Orientation → Dimension3D → Dimension3D
  | .ident, d => d
  | .swapLW, d => ⟨d.width_mm, d.length_mm, d.thickness_mm⟩
  | .swapWT, d => ⟨d.length_mm, d.thickness_mm, d.width_mm⟩
  | .swapLT, d => ⟨d.thickness_mm, d.width_mm, d.length_mm⟩

/-- Whether an orientation moves the part's length axis off the
stock's length axis: the two swaps involving length do, the identity
and the width↔thickness swap do not. -/
def Orientation.movesLengthAxis : Orientation → Bool
  | .ident => false
  | .swapLW => true
  | .swapWT => false
  | .swapLT => true

/-- Whether an orientation is enabled by the part's rotation flags
(the identity is always enabled). -/
def Orientation.allowedByFlags (p : PartRequirement) : Orientation → Bool
  | .ident => true
  | .swapLW => p.allow_rotation_length_width
  | .swapWT => p.allow_rotation_width_thickness
  | .swapLT => p.allow_rotation_length_thickness

/-- The candidate set described by the claim: some orientation enabled
by the rotation flags produces `d`, and when grain is enforced that
orientation must keep the part's length axis on the stock's length
axis. -/
def specCandidate (p : PartRequirement) (d : Dimension3D) : Prop :=
  ∃ o : Orientation, o.allowedByFlags p = true ∧
    (p.enforce_grain_along_length = true → o.movesLengthAxis = false) ∧
    d = o.apply p.required_dimensions_mm

/-- Modelled from the spec (Demand Queue contract): lexicographic
comparison on the key (priority descending, volume descending, name
ascending). -/
def specSortLE (p q : PartRequirement) : Bool :=
  decide (q.priority < p.priority) ||
  (decide (p.priority = q.priority) &&
    (decide (dimsVolume q.required_dimensions_mm < dimsVolume p.required_dimensions_mm) ||
     (decide (dimsVolume p.required_dimensions_mm = dimsVolume q.required_dimensions_mm) &&
      pyStrLe p.name.data q.name.data)))

/-- Modelled from the spec (Demand Queue contract): the processing
order the claim asserts, sorting on `-priority`, then `-volume`, then
`name`. -/
def specDemandOrder (required_parts : List PartRequirement) : List PartRequirement :=
  stableSort specSortLE required_parts

/-- All values of a remaining-demand dict are non-negative. -/
def rlNonneg (rl : List (String × ℤ)) : Prop :=
  ∀ kv ∈ rl, (0 : ℤ) ≤ kv.2

/-- The defining property of the engine's orientation commitment: the
committed dims are the first entry of `candidate_dims` passing
`feasibleCand`; every earlier candidate fails it. -/
def firstFeasiblePick (params : CuttingParameters) (item : InventoryItem)
    (remaining_length : ℚ) (part : PartRequirement) (d : Dimension3D) : Prop :=
  ∃ l1 l2, candidate_dims part = l1 ++ d :: l2 ∧
    feasibleCand params item remaining_length d = true ∧
    ∀ x ∈ l1, feasibleCand params item remaining_length x = false

/-- Erase the offcut list of a segment (used to state that offcuts
have no influence on anything else). -/
def stripSeg (s : LengthSegmentPlan) : LengthSegmentPlan :=
  ⟨s.start_mm, s.end_mm, s.cuts, []⟩

/-- Erase all offcut lists of a stick plan. -/
def stripStick (s : StickPlan) : StickPlan :=
  ⟨s.inventory_name, s.stick_index, s.dims_mm, s.segments.map stripSeg⟩

/-- Erase all offcut lists of a result, keeping plans, cuts,
utilization, waste, cut count and the per-part summary. -/
def stripResult (r : OptimizationResult) : OptimizationResult :=
  ⟨r.stick_plans.map stripStick, r.utilization_percent, r.waste_percent,
   r.total_cuts, r.summary_by_part⟩

/-- The property every recorded offcut actually satisfies: the
threshold is checked on the split axis only — the trailing-length
offcut's length, or (pre-kerf) the width strip's width. -/
def offcutOK (params : CuttingParameters) (o : Offcut) : Prop :=
  params.min_offcut_keep_mm ≤ o.dims_mm.length_mm ∨
  params.min_offcut_keep_mm ≤ o.dims_mm.width_mm + params.kerf_mm

/-- Volume of one placed piece. -/
def cutVolume (c : CutPiece) : ℚ := dimsVolume c.dims_mm

/-- Total placed-piece volume of a segment. -/
def segCutVolume (s : LengthSegmentPlan) : ℚ := (s.cuts.map cutVolume).sum

/-- Total placed-piece volume of a stick plan. -/
def stickCutVolume (s : StickPlan) : ℚ := (s.segments.map segCutVolume).sum

/-- Total placed-piece volume of a list of stick plans. -/
def plansCutVolume (l : List StickPlan) : ℚ := (l.map stickCutVolume).sum

/-- Total stock volume of a list of stick plans. -/
def plansStockVolume (l : List StickPlan) : ℚ :=
  (l.map (fun s => dimsVolume s.dims_mm)).sum

/-- Per stick, the sum of `piece.length + kerf` over its placed
pieces. -/
def stickLenKerfSums (params : CuttingParameters) (r : OptimizationResult) : List ℚ :=
  r.stick_plans.map (fun s =>
    (s.segments.map (fun seg =>
      (seg.cuts.map (fun c => c.dims_mm.length_mm + params.kerf_mm)).sum)).sum)

/-- The argument objects of one engine call. -/
structure EngineEnv where
  inventory : List InventoryItem
  required_parts : List PartRequirement
  params : CuttingParameters
deriving DecidableEq, Repr

/-- The `while` loop with the argument objects threaded through every
step: each iteration reads `e.params` and the current item and returns
the environment it finished with.  No statement of the source assigns
to a field of an argument object, so every branch passes the
environment on unchanged. -/
def stickLoopT (e : EngineEnv) (item : InventoryItem)
    (parts_sorted : List PartRequirement) :
    ℕ → ℚ → LoopState → StickOut × EngineEnv
  | 0, length_cursor, st => (⟨[], st, length_cursor⟩, e)
  | fuel + 1, length_cursor, st =>
      let L := item.dimensions_mm.length_mm
      if length_cursor < L then
        let remaining_length := L - length_cursor
        match tryPlace e.params item remaining_length st.required_left parts_sorted with
        | some pd =>
            let part := pd.1
            let picked := pd.2
            let qty_left := dictGetD st.required_left part.key 0
            let cut_piece : CutPiece :=
              ⟨part.key, picked, (length_cursor, 0, 0), choose_color part⟩
            let cursor1 := length_cursor + picked.length_mm + e.params.kerf_mm
            let rl1 := dictInsert st.required_left part.key (qty_left - 1)
            let width_offcut := item.dimensions_mm.width_mm - picked.width_mm
            let offs : List Offcut :=
              if width_offcut ≥ e.params.min_offcut_keep_mm then
                [⟨⟨picked.length_mm, width_offcut - e.params.kerf_mm, picked.thickness_mm⟩,
                  (length_cursor, picked.width_mm + e.params.kerf_mm, 0)⟩]
              else []
            let segment : LengthSegmentPlan := ⟨length_cursor, cursor1, [cut_piece], offs⟩
            let st1 : LoopState :=
              ⟨rl1,
               st.total_cut_volume +
                 picked.length_mm * picked.width_mm * picked.thickness_mm,
               st.total_cuts + 1⟩
            if allDone rl1 then (⟨[segment], st1, cursor1⟩, e)
            else
              let rest := stickLoopT e item parts_sorted fuel cursor1 st1
              (⟨segment :: rest.1.segments, rest.1.state, rest.1.cursor⟩, rest.2)
        | none =>
            let leftover_len := L - length_cursor
            let offs : List Offcut :=
              if leftover_len ≥ e.params.min_offcut_keep_mm then
                [⟨⟨leftover_len, item.dimensions_mm.width_mm,
                   item.dimensions_mm.thickness_mm⟩, (length_cursor, 0, 0)⟩]
              else []
            (⟨[⟨length_cursor, length_cursor, [], offs⟩], st, length_cursor⟩, e)
      else (⟨[], st, length_cursor⟩, e)

/-- The per-item stick loop with the argument objects threaded. -/
def runItemT (e : EngineEnv) (parts_sorted : List PartRequirement)
    (item : InventoryItem) : ℕ → ℕ → LoopState → RunOut × EngineEnv
  | 0, _, st => (⟨[], st, 0⟩, e)
  | count + 1, i, st =>
      let so := stickLoopT e item parts_sorted (fuelFor st.required_left) 0 st
      let stick : StickPlan := ⟨item.name, (i : ℤ) + 1, item.dimensions_mm, so.1.segments⟩
      let rest := runItemT so.2 parts_sorted item count (i + 1) so.1.state
      (⟨stick :: rest.1.sticks, rest.1.state,
        dimsVolume item.dimensions_mm + rest.1.stock_volume⟩, rest.2)

/-- The inventory loop with the argument objects threaded. -/
def itemsLoopT (e : EngineEnv) (parts_sorted : List PartRequirement) :
    List InventoryItem → LoopState → RunOut × EngineEnv
  | [], st => (⟨[], st, 0⟩, e)
  | item :: rest, st =>
      let ro := runItemT e parts_sorted item item.quantity.toNat 0 st
      if allDone ro.1.state.required_left then ro
      else
        let rr := itemsLoopT ro.2 parts_sorted rest ro.1.state
        (⟨ro.1.sticks ++ rr.1.sticks, rr.1.state,
          ro.1.stock_volume + rr.1.stock_volume⟩, rr.2)

/-- `optimize_cutting_plan` with the argument objects threaded through
every loop and returned alongside the result. -/
def optimize_cutting_planT (e : EngineEnv) : OptimizationResult × EngineEnv :=
  let required_left : List (String × ℤ) :=
    e.required_parts.foldl (fun d p => dictInsert d p.key p.quantity_total) []
  let ro := itemsLoopT e (demandOrder e.required_parts) e.inventory ⟨required_left, 0, 0⟩
  let utilization_percent : ℚ :=
    if 0 < ro.1.stock_volume then
      ro.1.state.total_cut_volume / ro.1.stock_volume * 100
    else 0
  let waste_percent : ℚ :=
    if 0 < ro.1.stock_volume then 100 - utilization_percent else 0
  let summary_by_part : List (String × ℤ × ℤ) :=
    (partByKey ro.2.required_parts).map (fun kv =>
      (kv.1, (kv.2.quantity_total - dictGetD ro.1.state.required_left kv.1 0,
              kv.2.quantity_total)))
  (⟨ro.1.sticks, utilization_percent, waste_percent, ro.1.state.total_cuts,
    summary_by_part⟩, ro.2)

/-! ### Concrete inputs used by the evaluation theorems -/

/-- Stock of the spec's worked example: one 2400×175×90 stick. -/
def exKerfItems : List InventoryItem := [⟨"stock", ⟨2400, 175, 90⟩, 1, none, none⟩]

/-- Part of the spec's worked example: 1200×100×20, quantity 2. -/
def exKerfParts : List PartRequirement :=
  [⟨"plank", "plank", "wood", ⟨1200, 100, 20⟩, 2, false, false, false, true, 1⟩]

/-- Parameters of the spec's worked example: kerf 3. -/
def exKerfParams : CuttingParameters := ⟨3, 0, ⟨0, 0, 0⟩, "efficiency"⟩

/-- Two stock types: a large stick and a small one that fits the part
tightly. -/
def exBestFitItems : List InventoryItem :=
  [⟨"big", ⟨1000, 200, 100⟩, 1, none, none⟩, ⟨"small", ⟨60, 60, 30⟩, 1, none, none⟩]

/-- One 50×50×20 part, no rotations. -/
def exBestFitParts : List PartRequirement :=
  [⟨"a", "a", "wood", ⟨50, 50, 20⟩, 1, false, false, false, true, 0⟩]

/-- Zero kerf and tolerance; a large keep threshold so no offcuts are
recorded. -/
def exBestFitParams : CuttingParameters := ⟨0, 1000000, ⟨0, 0, 0⟩, "efficiency"⟩

/-- A host stick wide enough to leave a reusable width strip, plus a
fresh stick matching the second part exactly. -/
def exReuseItems : List InventoryItem :=
  [⟨"host", ⟨100, 200, 50⟩, 1, none, none⟩, ⟨"fresh", ⟨100, 100, 50⟩, 1, none, none⟩]

/-- Part `a` leaves a 120mm-wide strip on the host; part `b` fits that
strip. -/
def exReuseParts : List PartRequirement :=
  [⟨"a", "a", "wood", ⟨100, 80, 50⟩, 1, false, false, false, true, 1⟩,
   ⟨"b", "b", "wood", ⟨100, 100, 50⟩, 1, false, false, false, true, 0⟩]

/-- Kerf 3, keep threshold 50. -/
def exReuseParams : CuttingParameters := ⟨3, 50, ⟨0, 0, 0⟩, "efficiency"⟩

/-- One 100×50×20 stick. -/
def exOffcutItems : List InventoryItem := [⟨"s", ⟨100, 50, 20⟩, 1, none, none⟩]

/-- Part `a` is placed; part `c` never fits, forcing a trailing
offcut. -/
def exOffcutParts : List PartRequirement :=
  [⟨"a", "a", "w", ⟨30, 50, 20⟩, 1, false, false, false, true, 0⟩,
   ⟨"c", "c", "w", ⟨500, 10, 10⟩, 1, false, false, false, true, 0⟩]

/-- Zero kerf, keep threshold 60 — larger than the stock's 50mm
width. -/
def exOffcutParams : CuttingParameters := ⟨0, 60, ⟨0, 0, 0⟩, "efficiency"⟩

/-- A single part that never fits the 100×50×20 stick, so the whole
stick becomes one trailing offcut. -/
def exTrailParts : List PartRequirement :=
  [⟨"c", "c", "w", ⟨500, 10, 10⟩, 1, false, false, false, true, 0⟩]

/-- Two same-priority parts whose name order disagrees with their
volume order. -/
def exOrderParts : List PartRequirement :=
  [⟨"a", "a", "w", ⟨1, 1, 1⟩, 1, false, false, false, true, 0⟩,
   ⟨"b", "b", "w", ⟨10, 10, 10⟩, 1, false, false, false, true, 0⟩]

/-- An inventory item carrying non-positive dimensions and a negative
quantity; the plain dataclass accepts it. -/
def exInvalidItems : List InventoryItem := [⟨"bad", ⟨-1, -2, -3⟩, -5, none, none⟩]

/-- A part requirement with a zero and a negative dimension and a
negative quantity; the plain dataclass accepts it. -/
def exInvalidParts : List PartRequirement :=
  [⟨"p", "p", "m", ⟨0, -1, 5⟩, -2, false, false, false, true, 0⟩]

/-- Ordinary parameters for the invalid-input run. -/
def exInvalidParams : CuttingParameters := ⟨3, 50, ⟨0, 0, 0⟩, "efficiency"⟩

/-- The conclusion of the conservation claim at given inputs: the
remaining-demand counters end non-negative, they stay non-negative
across any stick run started from non-negative counters, and every
reported summary row satisfies `produced + missing = requested`. -/
def ConservationProp (inventory : List InventoryItem)
    (required_parts : List PartRequirement) (params : CuttingParameters) : Prop :=
  rlNonneg (runEngine inventory required_parts params).state.required_left ∧
  (∀ (item : InventoryItem) (fuel : ℕ) (cursor : ℚ) (st : LoopState),
    rlNonneg st.required_left →
    rlNonneg (stickLoop params item (demandOrder required_parts) fuel cursor st).state.required_left) ∧
  (∀ e ∈ (optimize_cutting_plan inventory required_parts params).summary_by_part,
    e.2.1 + dictGetD (runEngine inventory required_parts params).state.required_left e.1 0
      = e.2.2)

/-! ### Helper lemmas -/

theorem mem_dedupSeen (l : List Dimension3D) :
    ∀ (seen : List Dimension3D) (x : Dimension3D),
      x ∈ dedupSeen seen l ↔ x ∈ l ∧ x ∉ seen := by
  induction l with
  | nil => intro seen x; simp [dedupSeen]
  | cons d ds ih =>
      intro seen x
      by_cases hd : d ∈ seen
      · simp only [dedupSeen, if_pos hd, ih, List.mem_cons]
        constructor
        · rintro ⟨hx, hs⟩; exact ⟨Or.inr hx, hs⟩
        · rintro ⟨hx | hx, hs⟩
          · exact absurd (hx ▸ hd) hs
          · exact ⟨hx, hs⟩
      · simp only [dedupSeen, if_neg hd, List.mem_cons, ih]
        constructor
        · rintro (rfl | ⟨hx, hs⟩)
          · exact ⟨Or.inl rfl, hd⟩
          · refine ⟨Or.inr hx, fun hmem => hs (by simp [hmem])⟩
        · rintro ⟨rfl | hx, hs⟩
          · exact Or.inl rfl
          · by_cases hxd : x = d
            · exact Or.inl hxd
            · exact Or.inr ⟨hx, by simp [hxd, hs]⟩

theorem nodup_dedupSeen (l : List Dimension3D) :
    ∀ seen : List Dimension3D, (dedupSeen seen l).Nodup := by
  induction l with
  | nil => intro seen; simp [dedupSeen]
  | cons d ds ih =>
      intro seen
      by_cases hd : d ∈ seen
      · simpa [dedupSeen, hd] using ih seen
      · simp only [dedupSeen, if_neg hd, List.nodup_cons]
        refine ⟨fun hmem => ?_, ih _⟩
        exact ((mem_dedupSeen ds _ d).mp hmem).2 (List.mem_cons_self d seen)

theorem mem_candidate_dims (p : PartRequirement) (d : Dimension3D) :
    d ∈ candidate_dims p ↔
      (d = ⟨p.required_dimensions_mm.length_mm, p.required_dimensions_mm.width_mm,
            p.required_dimensions_mm.thickness_mm⟩ ∨
       (p.allow_rotation_width_thickness = true ∧
        d = ⟨p.required_dimensions_mm.length_mm, p.required_dimensions_mm.thickness_mm,
             p.required_dimensions_mm.width_mm⟩) ∨
       (p.enforce_grain_along_length = false ∧ p.allow_rotation_length_width = true ∧
        d = ⟨p.required_dimensions_mm.width_mm, p.required_dimensions_mm.length_mm,
             p.required_dimensions_mm.thickness_mm⟩) ∨
       (p.enforce_grain_along_length = false ∧ p.allow_rotation_length_thickness = true ∧
        d = ⟨p.required_dimensions_mm.thickness_mm, p.required_dimensions_mm.width_mm,
             p.required_dimensions_mm.length_mm⟩)) := by
  simp only [candidate_dims, mem_dedupSeen, List.not_mem_nil, not_false_iff, and_true]
  cases hg : p.enforce_grain_along_length <;>
    cases hwt : p.allow_rotation_width_thickness <;>
      cases hlw : p.allow_rotation_length_width <;>
        cases hlt : p.allow_rotation_length_thickness <;>
          simp [List.mem_append]

theorem insertSorted_perm {α : Type} (le : α → α → Bool) (x : α) :
    ∀ l : List α, (insertSorted le x l).Perm (x :: l) := by
  intro l
  induction l with
  | nil => simp [insertSorted]
  | cons y ys ih =>
      by_cases h : le x y = true
      · simp [insertSorted, h]
      · simp only [insertSorted, h, if_false, Bool.false_eq_true]
        exact ((ih.cons y).trans (List.Perm.swap x y ys))

theorem stableSort_perm {α : Type} (le : α → α → Bool) :
    ∀ l : List α, (stableSort le l).Perm l := by
  intro l
  induction l with
  | nil => simp [stableSort]
  | cons x xs ih =>
      exact (insertSorted_perm le x (stableSort le xs)).trans (ih.cons x)

theorem insertSorted_pairwise {α : Type} (le : α → α → Bool)
    (htot : ∀ a b, le a b = true ∨ le b a = true)
    (htrans : ∀ a b c, le a b = true → le b c = true → le a c = true)
    (x : α) : ∀ l : List α, l.Pairwise (fun a b => le a b = true) →
      (insertSorted le x l).Pairwise (fun a b => le a b = true) := by
  intro l
  induction l with
  | nil => intro _; simp [insertSorted]
  | cons y ys ih =>
      intro hp
      rcases List.pairwise_cons.mp hp with ⟨hy, hys⟩
      by_cases h : le x y = true
      · simp only [insertSorted, h, if_true]
        refine List.pairwise_cons.mpr ⟨?_, hp⟩
        intro z hz
        rcases List.mem_cons.mp hz with rfl | hz
        · exact h
        · exact htrans x y z h (hy z hz)
      · simp only [insertSorted, h, if_false, Bool.false_eq_true]
        refine List.pairwise_cons.mpr ⟨?_, ih hys⟩
        intro z hz
        have hz2 := (insertSorted_perm le x ys).mem_iff.mp hz
        rcases List.mem_cons.mp hz2 with rfl | hz3
        · rcases htot z y with hzy | hyz
          · exact absurd hzy h
          · exact hyz
        · exact hy z hz3

theorem stableSort_pairwise {α : Type} (le : α → α → Bool)
    (htot : ∀ a b, le a b = true ∨ le b a = true)
    (htrans : ∀ a b c, le a b = true → le b c = true → le a c = true) :
    ∀ l : List α, (stableSort le l).Pairwise (fun a b => le a b = true) := by
  intro l
  induction l with
  | nil => simp [stableSort]
  | cons x xs ih => exact insertSorted_pairwise le htot htrans x _ ih

theorem pyStrLe_total : ∀ a b : List Char, pyStrLe a b = true ∨ pyStrLe b a = true := by
  intro a
  induction a with
  | nil => intro b; exact Or.inl rfl
  | cons c cs ih =>
      intro b
      cases b with
      | nil => exact Or.inr rfl
      | cons d ds =>
          rcases lt_trichotomy c.toNat d.toNat with h | h | h
          · exact Or.inl (by simp [pyStrLe, h])
          · rcases ih ds with hcd | hdc
            · exact Or.inl (by simp [pyStrLe, h, hcd])
            · exact Or.inr (by simp [pyStrLe, h, hdc])
          · exact Or.inr (by simp [pyStrLe, h])

theorem pyStrLe_trans : ∀ a b c : List Char,
    pyStrLe a b = true → pyStrLe b c = true → pyStrLe a c = true := by
  intro a
  induction a with
  | nil => intro b c _ _; rfl
  | cons x xs ih =>
      intro b c hab hbc
      cases b with
      | nil => exact absurd hab (by simp [pyStrLe])
      | cons y ys =>
          cases c with
          | nil => exact absurd hbc (by simp [pyStrLe])
          | cons z zs =>
              rcases lt_trichotomy x.toNat y.toNat with hxy | hxy | hxy
              · rcases lt_trichotomy y.toNat z.toNat with hyz | hyz | hyz
                · simp [pyStrLe, hxy.trans hyz]
                · simp [pyStrLe, hyz ▸ hxy]
                · exact absurd hbc (by simp [pyStrLe, hyz, asymm hyz])
              · rcases lt_trichotomy y.toNat z.toNat with hyz | hyz | hyz
                · simp [pyStrLe, hxy ▸ hyz]
                · have hxz : x.toNat = z.toNat := hxy.trans hyz
                  have hab2 : pyStrLe xs ys = true := by
                    simpa [pyStrLe, hxy, lt_irrefl] using hab
                  have hbc2 : pyStrLe ys zs = true := by
                    simpa [pyStrLe, hyz, lt_irrefl] using hbc
                  simp [pyStrLe, hxz, lt_irrefl, ih ys zs hab2 hbc2]
                · exact absurd hbc (by simp [pyStrLe, hyz, asymm hyz])
              · exact absurd hab (by simp [pyStrLe, hxy, asymm hxy])

theorem sortLE_total (p q : PartRequirement) :
    sortLE p q = true ∨ sortLE q p = true := by
  simp only [sortLE, Bool.or_eq_true, Bool.and_eq_true, decide_eq_true_eq]
  rcases lt_trichotomy p.priority q.priority with h | h | h
  · exact Or.inr (Or.inl h)
  · rcases pyStrLe_total p.name.data q.name.data with hn | hn
    · exact Or.inl (Or.inr ⟨h, hn⟩)
    · exact Or.inr (Or.inr ⟨h.symm, hn⟩)
  · exact Or.inl (Or.inl h)

theorem sortLE_trans (p q r : PartRequirement) :
    sortLE p q = true → sortLE q r = true → sortLE p r = true := by
  simp only [sortLE, Bool.or_eq_true, Bool.and_eq_true, decide_eq_true_eq]
  rintro (h1 | ⟨h1, h1n⟩) (h2 | ⟨h2, h2n⟩)
  · exact Or.inl (h2.trans h1)
  · exact Or.inl (h2 ▸ h1)
  · exact Or.inl (h1 ▸ h2)
  · exact Or.inr ⟨h1.trans h2, pyStrLe_trans _ _ _ h1n h2n⟩

theorem mem_dictInsert {α : Type} (k : String) (v : α) :
    ∀ (d : List (String × α)) (kv : String × α),
      kv ∈ dictInsert d k v → kv = (k, v) ∨ kv ∈ d := by
  intro d
  induction d with
  | nil => intro kv hkv; simpa [dictInsert] using hkv
  | cons hd tl ih =>
      intro kv hkv
      by_cases h : hd.1 = k
      · rcases hd with ⟨k1, v1⟩
        simp only [dictInsert, if_pos h, List.mem_cons] at hkv
        rcases hkv with rfl | hkv
        · exact Or.inl rfl
        · exact Or.inr (List.mem_cons_of_mem _ hkv)
      · rcases hd with ⟨k1, v1⟩
        simp only [dictInsert, if_neg h, List.mem_cons] at hkv
        rcases hkv with rfl | hkv
        · exact Or.inr (List.mem_cons_self _ _)
        · rcases ih kv hkv with h2 | h2
          · exact Or.inl h2
          · exact Or.inr (List.mem_cons_of_mem _ h2)

theorem rlNonneg_dictInsert {d : List (String × ℤ)} {k : String} {v : ℤ}
    (hd : rlNonneg d) (hv : 0 ≤ v) : rlNonneg (dictInsert d k v) := by
  intro kv hkv
  rcases mem_dictInsert k v d kv hkv with rfl | h
  · exact hv
  · exact hd kv h

theorem tryPlace_pos (params : CuttingParameters) (item : InventoryItem)
    (rem : ℚ) (rl : List (String × ℤ)) :
    ∀ (parts : List PartRequirement) (pd : PartRequirement × Dimension3D),
      tryPlace params item rem rl parts = some pd → 0 < dictGetD rl pd.1.key 0 := by
  intro parts
  induction parts with
  | nil => intro pd h; simp [tryPlace] at h
  | cons part rest ih =>
      intro pd h
      by_cases hq : dictGetD rl part.key 0 ≤ 0
      · exact ih pd (by simpa [tryPlace, hq] using h)
      · rcases hpick : pickDims params item rem part with _ | d
        · exact ih pd (by simpa [tryPlace, hq, hpick] using h)
        · have : pd = (part, d) := by simpa [tryPlace, hq, hpick] using h.symm
          subst this
          exact lt_of_not_le hq

theorem stickLoop_rlNonneg (params : CuttingParameters) (item : InventoryItem)
    (ps : List PartRequirement) :
    ∀ (fuel : ℕ) (cursor : ℚ) (st : LoopState), rlNonneg st.required_left →
      rlNonneg (stickLoop params item ps fuel cursor st).state.required_left := by
  intro fuel
  induction fuel with
  | zero => intro cursor st h; simpa [stickLoop] using h
  | succ fuel ih =>
      intro cursor st h
      rw [stickLoop]
      by_cases hc : cursor < item.dimensions_mm.length_mm
      · simp only [if_pos hc]
        rcases htp : tryPlace params item (item.dimensions_mm.length_mm - cursor)
            st.required_left ps with _ | pd
        · simpa using h
        · have hpos := tryPlace_pos params item _ _ ps pd htp
          have hrl1 : rlNonneg (dictInsert st.required_left pd.1.key
              (dictGetD st.required_left pd.1.key 0 - 1)) :=
            rlNonneg_dictInsert h (by omega)
          simp only
          by_cases hdone : allDone (dictInsert st.required_left pd.1.key
              (dictGetD st.required_left pd.1.key 0 - 1)) = true
          · simpa [hdone] using hrl1
          · simpa [hdone] using ih _ _ hrl1
      · simpa [if_neg hc] using h

theorem runItem_rlNonneg (params : CuttingParameters)
    (ps : List PartRequirement) (item : InventoryItem) :
    ∀ (count i : ℕ) (st : LoopState), rlNonneg st.required_left →
      rlNonneg (runItem params ps item count i st).state.required_left := by
  intro count
  induction count with
  | zero => intro i st h; simpa [runItem] using h
  | succ count ih =>
      intro i st h
      rw [runItem]
      exact ih _ _ (stickLoop_rlNonneg params item ps _ _ _ h)

theorem itemsLoop_rlNonneg (params : CuttingParameters) (ps : List PartRequirement) :
    ∀ (inv : List InventoryItem) (st : LoopState), rlNonneg st.required_left →
      rlNonneg (itemsLoop params ps inv st).state.required_left := by
  intro inv
  induction inv with
  | nil => intro st h; simpa [itemsLoop] using h
  | cons item rest ih =>
      intro st h
      rw [itemsLoop]
      have h1 := runItem_rlNonneg params ps item item.quantity.toNat 0 st h
      by_cases hdone : allDone (runItem params ps item item.quantity.toNat 0
          st).state.required_left = true
      · simpa [hdone] using h1
      · simpa [hdone] using ih _ h1

theorem rlNonneg_initial (parts : List PartRequirement)
    (hp : ∀ p ∈ parts, 0 ≤ p.quantity_total) :
    ∀ d : List (String × ℤ), rlNonneg d →
      rlNonneg (parts.foldl (fun d p => dictInsert d p.key p.quantity_total) d) := by
  induction parts with
  | nil => intro d hd; simpa using hd
  | cons p rest ih =>
      intro d hd
      simp only [List.foldl_cons]
      exact ih (fun q hq => hp q (List.mem_cons_of_mem _ hq)) _
        (rlNonneg_dictInsert hd (hp p (List.mem_cons_self _ _)))

theorem find?_first {α : Type} (p : α → Bool) :
    ∀ (l : List α) (a : α), l.find? p = some a →
      ∃ l1 l2, l = l1 ++ a :: l2 ∧ p a = true ∧ ∀ x ∈ l1, p x = false := by
  intro l
  induction l with
  | nil => intro a h; simp [List.find?] at h
  | cons x xs ih =>
      intro a h
      rcases hp : p x with _ | _
      · rcases ih a (by simpa [List.find?, hp] using h) with ⟨l1, l2, rfl, ha, hl1⟩
        refine ⟨x :: l1, l2, rfl, ha, ?_⟩
        intro y hy
        rcases List.mem_cons.mp hy with rfl | hy
        · exact hp
        · exact hl1 y hy
      · have hxa : x = a := by simpa [List.find?, hp] using h
        subst hxa
        exact ⟨[], xs, rfl, hp, by simp⟩

theorem stickLoop_offcutOK (params : CuttingParameters) (item : InventoryItem)
    (ps : List PartRequirement) :
    ∀ (fuel : ℕ) (cursor : ℚ) (st : LoopState),
      ∀ seg ∈ (stickLoop params item ps fuel cursor st).segments,
        ∀ oc ∈ seg.offcuts, offcutOK params oc := by
  intro fuel
  induction fuel with
  | zero => intro cursor st seg hseg; simp [stickLoop] at hseg
  | succ fuel ih =>
      intro cursor st seg hseg oc hoc
      rw [stickLoop] at hseg
      by_cases hc : cursor < item.dimensions_mm.length_mm
      · simp only [if_pos hc] at hseg
        rcases htp : tryPlace params item (item.dimensions_mm.length_mm - cursor)
            st.required_left ps with _ | pd
        · rw [htp] at hseg
          simp only [List.mem_singleton] at hseg
          subst hseg
          simp only at hoc
          by_cases hbig : item.dimensions_mm.length_mm - cursor ≥ params.min_offcut_keep_mm
          · simp only [if_pos hbig, List.mem_singleton] at hoc
            subst hoc
            exact Or.inl hbig
          · simp [if_neg hbig] at hoc
        · rw [htp] at hseg
          simp only at hseg
          by_cases hdone : allDone (dictInsert st.required_left pd.1.key
              (dictGetD st.required_left pd.1.key 0 - 1)) = true
          · simp only [hdone, if_pos, List.mem_singleton] at hseg
            subst hseg
            simp only at hoc
            by_cases hbig : item.dimensions_mm.width_mm - pd.2.width_mm ≥
                params.min_offcut_keep_mm
            · simp only [if_pos hbig, List.mem_singleton] at hoc
              subst hoc
              refine Or.inr ?_
              simpa using hbig
            · simp [if_neg hbig] at hoc
          · simp only [hdone, Bool.false_eq_true, if_false, List.mem_cons] at hseg
            rcases hseg with rfl | hseg
            · simp only at hoc
              by_cases hbig : item.dimensions_mm.width_mm - pd.2.width_mm ≥
                  params.min_offcut_keep_mm
              · simp only [if_pos hbig, List.mem_singleton] at hoc
                subst hoc
                refine Or.inr ?_
                simpa using hbig
              · simp [if_neg hbig] at hoc
            · exact ih _ _ seg hseg oc hoc
      · simp [if_neg hc] at hseg

theorem runItem_offcutOK (params : CuttingParameters)
    (ps : List PartRequirement) (item : InventoryItem) :
    ∀ (count i : ℕ) (st : LoopState),
      ∀ sp ∈ (runItem params ps item count i st).sticks,
        ∀ seg ∈ sp.segments, ∀ oc ∈ seg.offcuts, offcutOK params oc := by
  intro count
  induction count with
  | zero => intro i st sp hsp; simp [runItem] at hsp
  | succ count ih =>
      intro i st sp hsp
      rw [runItem] at hsp
      simp only [List.mem_cons] at hsp
      rcases hsp with rfl | hsp
      · intro seg hseg
        exact stickLoop_offcutOK params item ps _ _ _ seg hseg
      · exact ih _ _ sp hsp

theorem itemsLoop_offcutOK (params : CuttingParameters) (ps : List PartRequirement) :
    ∀ (inv : List InventoryItem) (st : LoopState),
      ∀ sp ∈ (itemsLoop params ps inv st).sticks,
        ∀ seg ∈ sp.segments, ∀ oc ∈ seg.offcuts, offcutOK params oc := by
  intro inv
  induction inv with
  | nil => intro st sp hsp; simp [itemsLoop] at hsp
  | cons item rest ih =>
      intro st sp hsp
      rw [itemsLoop] at hsp
      by_cases hdone : allDone (runItem params ps item item.quantity.toNat 0
          st).state.required_left = true
      · simp only [hdone, if_pos] at hsp
        exact runItem_offcutOK params ps item _ _ _ sp hsp
      · simp only [hdone, Bool.false_eq_true, if_false, List.mem_append] at hsp
        rcases hsp with hsp | hsp
        · exact runItem_offcutOK params ps item _ _ _ sp hsp
        · exact ih _ sp hsp

theorem stickLoop_cut_volume (params : CuttingParameters) (item : InventoryItem)
    (ps : List PartRequirement) :
    ∀ (fuel : ℕ) (cursor : ℚ) (st : LoopState),
      (stickLoop params item ps fuel cursor st).state.total_cut_volume
        = st.total_cut_volume +
          ((stickLoop params item ps fuel cursor st).segments.map segCutVolume).sum := by
  intro fuel
  induction fuel with
  | zero => intro cursor st; simp [stickLoop]
  | succ fuel ih =>
      intro cursor st
      rw [stickLoop]
      by_cases hc : cursor < item.dimensions_mm.length_mm
      · simp only [if_pos hc]
        rcases htp : tryPlace params item (item.dimensions_mm.length_mm - cursor)
            st.required_left ps with _ | pd
        · simp [segCutVolume]
        · simp only
          by_cases hdone : allDone (dictInsert st.required_left pd.1.key
              (dictGetD st.required_left pd.1.key 0 - 1)) = true
          · simp [hdone, segCutVolume, cutVolume, dimsVolume]
          · simp only [hdone, Bool.false_eq_true, if_false, List.map_cons, List.sum_cons]
            rw [ih]
            simp [segCutVolume, cutVolume, dimsVolume]
            ring
      · simp [if_neg hc]

theorem runItem_volumes (params : CuttingParameters)
    (ps : List PartRequirement) (item : InventoryItem) :
    ∀ (count i : ℕ) (st : LoopState),
      (runItem params ps item count i st).state.total_cut_volume
          = st.total_cut_volume + plansCutVolume (runItem params ps item count i st).sticks ∧
      (runItem params ps item count i st).stock_volume
          = plansStockVolume (runItem params ps item count i st).sticks := by
  intro count
  induction count with
  | zero => intro i st; simp [runItem, plansCutVolume, plansStockVolume]
  | succ count ih =>
      intro i st
      rw [runItem]
      rcases ih (i + 1) (stickLoop params item ps (fuelFor st.required_left) 0 st).state
        with ⟨ih1, ih2⟩
      constructor
      · simp only [plansCutVolume, List.map_cons, List.sum_cons]
        rw [ih1, stickLoop_cut_volume]
        simp only [stickCutVolume, plansCutVolume]
        ring
      · simp only [plansStockVolume, List.map_cons, List.sum_cons]
        rw [ih2]
        simp [plansStockVolume]

theorem itemsLoop_volumes (params : CuttingParameters) (ps : List PartRequirement) :
    ∀ (inv : List InventoryItem) (st : LoopState),
      (itemsLoop params ps inv st).state.total_cut_volume
          = st.total_cut_volume + plansCutVolume (itemsLoop params ps inv st).sticks ∧
      (itemsLoop params ps inv st).stock_volume
          = plansStockVolume (itemsLoop params ps inv st).sticks := by
  intro inv
  induction inv with
  | nil => intro st; simp [itemsLoop, plansCutVolume, plansStockVolume]
  | cons item rest ih =>
      intro st
      rw [itemsLoop]
      rcases runItem_volumes params ps item item.quantity.toNat 0 st with ⟨h1, h2⟩
      by_cases hdone : allDone (runItem params ps item item.quantity.toNat 0
          st).state.required_left = true
      · simp only [hdone, if_true, if_pos]
        exact ⟨h1, h2⟩
      · rcases ih (runItem params ps item item.quantity.toNat 0 st).state with ⟨ih1, ih2⟩
        simp only [hdone, Bool.false_eq_true, if_false]
        constructor
        · simp only [plansCutVolume, List.map_append, List.sum_append]
          rw [ih1, h1]
          simp only [plansCutVolume]
          ring
        · simp only [plansStockVolume, List.map_append, List.sum_append]
          rw [ih2, h2]
          simp [plansStockVolume]

theorem feasibleCand_congr {p1 p2 : CuttingParameters}
    (hk : p1.kerf_mm = p2.kerf_mm) (ht : p1.tolerance = p2.tolerance)
    (item : InventoryItem) (rem : ℚ) :
    feasibleCand p1 item rem = feasibleCand p2 item rem := by
  funext c
  simp [feasibleCand, fits, hk, ht]

theorem pickDims_congr {p1 p2 : CuttingParameters}
    (hk : p1.kerf_mm = p2.kerf_mm) (ht : p1.tolerance = p2.tolerance)
    (item : InventoryItem) (rem : ℚ) (part : PartRequirement) :
    pickDims p1 item rem part = pickDims p2 item rem part := by
  simp [pickDims, feasibleCand_congr hk ht]

theorem tryPlace_congr {p1 p2 : CuttingParameters}
    (hk : p1.kerf_mm = p2.kerf_mm) (ht : p1.tolerance = p2.tolerance)
    (item : InventoryItem) (rem : ℚ) (rl : List (String × ℤ)) :
    ∀ parts : List PartRequirement,
      tryPlace p1 item rem rl parts = tryPlace p2 item rem rl parts := by
  intro parts
  induction parts with
  | nil => rfl
  | cons part rest ih =>
      simp only [tryPlace, pickDims_congr hk ht, ih]

theorem stickLoop_strip {p1 p2 : CuttingParameters}
    (hk : p1.kerf_mm = p2.kerf_mm) (ht : p1.tolerance = p2.tolerance)
    (item : InventoryItem) (ps : List PartRequirement) :
    ∀ (fuel : ℕ) (cursor : ℚ) (st : LoopState),
      (stickLoop p1 item ps fuel cursor st).state
          = (stickLoop p2 item ps fuel cursor st).state ∧
      (stickLoop p1 item ps fuel cursor st).cursor
          = (stickLoop p2 item ps fuel cursor st).cursor ∧
      (stickLoop p1 item ps fuel cursor st).segments.map stripSeg
          = (stickLoop p2 item ps fuel cursor st).segments.map stripSeg := by
  intro fuel
  induction fuel with
  | zero => intro cursor st; simp [stickLoop]
  | succ fuel ih =>
      intro cursor st
      simp only [stickLoop]
      rw [tryPlace_congr hk ht]
      by_cases hc : cursor < item.dimensions_mm.length_mm
      · simp only [if_pos hc]
        rcases htp : tryPlace p2 item (item.dimensions_mm.length_mm - cursor)
            st.required_left ps with _ | pd
        · simp [stripSeg]
        · simp only [hk]
          by_cases hdone : allDone (dictInsert st.required_left pd.1.key
              (dictGetD st.required_left pd.1.key 0 - 1)) = true
          · simp [hdone, stripSeg]
          · rcases ih (cursor + pd.2.length_mm + p2.kerf_mm)
                ⟨dictInsert st.required_left pd.1.key
                   (dictGetD st.required_left pd.1.key 0 - 1),
                 st.total_cut_volume +
                   pd.2.length_mm * pd.2.width_mm * pd.2.thickness_mm,
                 st.total_cuts + 1⟩ with ⟨ih1, ih2, ih3⟩
            simp only [hdone, Bool.false_eq_true, if_false, List.map_cons]
            exact ⟨ih1, ih2, by rw [ih3]; simp [stripSeg]⟩
      · simp [if_neg hc]

theorem runItem_strip {p1 p2 : CuttingParameters}
    (hk : p1.kerf_mm = p2.kerf_mm) (ht : p1.tolerance = p2.tolerance)
    (item : InventoryItem) (ps : List PartRequirement) :
    ∀ (count i : ℕ) (st : LoopState),
      (runItem p1 ps item count i st).state = (runItem p2 ps item count i st).state ∧
      (runItem p1 ps item count i st).stock_volume
          = (runItem p2 ps item count i st).stock_volume ∧
      (runItem p1 ps item count i st).sticks.map stripStick
          = (runItem p2 ps item count i st).sticks.map stripStick := by
  intro count
  induction count with
  | zero => intro i st; simp [runItem]
  | succ count ih =>
      intro i st
      simp only [runItem]
      rcases stickLoop_strip hk ht item ps (fuelFor st.required_left) 0 st
        with ⟨hs1, _, hs3⟩
      rw [hs1]
      rcases ih (i + 1) (stickLoop p2 item ps (fuelFor st.required_left) 0 st).state
        with ⟨ih1, ih2, ih3⟩
      refine ⟨ih1, by rw [ih2], ?_⟩
      simp only [List.map_cons, ih3, stripStick]
      rw [hs3]

theorem itemsLoop_strip {p1 p2 : CuttingParameters}
    (hk : p1.kerf_mm = p2.kerf_mm) (ht : p1.tolerance = p2.tolerance)
    (ps : List PartRequirement) :
    ∀ (inv : List InventoryItem) (st : LoopState),
      (itemsLoop p1 ps inv st).state = (itemsLoop p2 ps inv st).state ∧
      (itemsLoop p1 ps inv st).stock_volume = (itemsLoop p2 ps inv st).stock_volume ∧
      (itemsLoop p1 ps inv st).sticks.map stripStick
          = (itemsLoop p2 ps inv st).sticks.map stripStick := by
  intro inv
  induction inv with
  | nil => intro st; simp [itemsLoop]
  | cons item rest ih =>
      intro st
      simp only [itemsLoop]
      rcases runItem_strip hk ht item ps item.quantity.toNat 0 st with ⟨h1, h2, h3⟩
      rw [h1]
      by_cases hdone : allDone (runItem p2 ps item item.quantity.toNat 0
          st).state.required_left = true
      · simp only [hdone, if_true, if_pos]
        exact ⟨h1, h2, h3⟩
      · rcases ih (runItem p2 ps item item.quantity.toNat 0 st).state with ⟨ih1, ih2, ih3⟩
        simp only [hdone, Bool.false_eq_true, if_false]
        refine ⟨ih1, by rw [h2, ih2], ?_⟩
        simp only [List.map_append, h3, ih3]

theorem stickLoopT_eq (e : EngineEnv) (item : InventoryItem)
    (ps : List PartRequirement) :
    ∀ (fuel : ℕ) (cursor : ℚ) (st : LoopState),
      stickLoopT e item ps fuel cursor st
        = (stickLoop e.params item ps fuel cursor st, e) := by
  intro fuel
  induction fuel with
  | zero => intro cursor st; rfl
  | succ fuel ih =>
      intro cursor st
      simp only [stickLoopT, stickLoop]
      by_cases hc : cursor < item.dimensions_mm.length_mm
      · simp only [if_pos hc]
        rcases htp : tryPlace e.params item (item.dimensions_mm.length_mm - cursor)
            st.required_left ps with _ | pd
        · rfl
        · simp only
          by_cases hdone : allDone (dictInsert st.required_left pd.1.key
              (dictGetD st.required_left pd.1.key 0 - 1)) = true
          · simp [hdone]
          · simp [hdone, ih]
      · simp [if_neg hc]

theorem runItemT_eq (e : EngineEnv) (ps : List PartRequirement)
    (item : InventoryItem) :
    ∀ (count i : ℕ) (st : LoopState),
      runItemT e ps item count i st = (runItem e.params ps item count i st, e) := by
  intro count
  induction count with
  | zero => intro i st; rfl
  | succ count ih =>
      intro i st
      simp only [runItemT, runItem, stickLoopT_eq, ih]

theorem itemsLoopT_eq (e : EngineEnv) (ps : List PartRequirement) :
    ∀ (inv : List InventoryItem) (st : LoopState),
      itemsLoopT e ps inv st = (itemsLoop e.params ps inv st, e) := by
  intro inv
  induction inv with
  | nil => intro st; rfl
  | cons item rest ih =>
      intro st
      simp only [itemsLoopT, itemsLoop, runItemT_eq]
      by_cases hdone : allDone (runItem e.params ps item item.quantity.toNat 0
          st).state.required_left = true
      · simp [hdone]
      · simp [hdone, ih]

theorem optimizeT_eq (e : EngineEnv) :
    optimize_cutting_planT e
      = (optimize_cutting_plan e.inventory e.required_parts e.params, e) := by
  simp only [optimize_cutting_planT, optimize_cutting_plan, runEngine, itemsLoopT_eq]

/-! ### Claim theorems -/

/-- C4: the candidate orientations tried for a part are exactly: the
identity, the length-width swap iff `allow_rotation_length_width`, the
width-thickness swap iff `allow_rotation_width_thickness`, the
length-thickness swap iff `allow_rotation_length_thickness`, where
under `enforce_grain_along_length` every orientation moving the part's
length axis off the stock's length axis is excluded regardless of the
flags; and the resulting dimension triples carry no duplicates. -/
theorem c4_orientation_enumeration (p : PartRequirement) (d : Dimension3D) :
    (d ∈ candidate_dims p ↔ specCandidate p d) ∧ (candidate_dims p).Nodup := by
  refine ⟨?_, nodup_dedupSeen _ _⟩
  rw [mem_candidate_dims]
  constructor
  · rintro (rfl | ⟨hf, rfl⟩ | ⟨hg, hf, rfl⟩ | ⟨hg, hf, rfl⟩)
    · exact ⟨.ident, rfl, fun _ => rfl, rfl⟩
    · exact ⟨.swapWT, hf, fun _ => rfl, rfl⟩
    · exact ⟨.swapLW, hf, fun h => absurd h (by simp [hg]), rfl⟩
    · exact ⟨.swapLT, hf, fun h => absurd h (by simp [hg]), rfl⟩
  · rintro ⟨o, hflag, hgrain, rfl⟩
    cases o with
    | ident => exact Or.inl rfl
    | swapWT => exact Or.inr (Or.inl ⟨hflag, rfl⟩)
    | swapLW =>
        refine Or.inr (Or.inr (Or.inl ⟨?_, hflag, rfl⟩))
        cases hg : p.enforce_grain_along_length
        · rfl
        · exact absurd (hgrain hg) (by simp [Orientation.movesLengthAxis])
    | swapLT =>
        refine Or.inr (Or.inr (Or.inr ⟨?_, hflag, rfl⟩))
        cases hg : p.enforce_grain_along_length
        · rfl
        · exact absurd (hgrain hg) (by simp [Orientation.movesLengthAxis])

/-- C1: conservation of demand.  For inputs whose requested quantities
are non-negative: the remaining-demand counters (`required_left`) end
the run non-negative; any stick run started from non-negative counters
leaves them non-negative (so they are non-negative at every point of
the run); and every row of the reported summary satisfies
`produced + missing = quantity_total`, where `missing` is the final
remaining-demand value for that key. -/
theorem c1_conservation (inventory : List InventoryItem)
    (required_parts : List PartRequirement) (params : CuttingParameters)
    (hp : ∀ p ∈ required_parts, 0 ≤ p.quantity_total) :
    ConservationProp inventory required_parts params := by
  refine ⟨?_, ?_, ?_⟩
  · exact itemsLoop_rlNonneg params (demandOrder required_parts) inventory _
      (rlNonneg_initial required_parts hp [] (by intro kv h; simp at h))
  · intro item fuel cursor st h
    exact stickLoop_rlNonneg params item (demandOrder required_parts) fuel cursor st h
  · intro e he
    simp only [optimize_cutting_plan, List.mem_map] at he
    rcases he with ⟨kv, _, rfl⟩
    simp [sub_add_cancel]

/-- C1 witness: the conservation theorem instantiated at the concrete
run of one 2400×175×90 stick against two 1200×100×20 parts. -/
theorem c1_conservation_witness :
    (∀ p ∈ exKerfParts, 0 ≤ p.quantity_total) ∧
    ConservationProp exKerfItems exKerfParts exKerfParams :=
  ⟨by decide, c1_conservation exKerfItems exKerfParts exKerfParams (by decide)⟩

/-- C3 counterexample: with a huge first stock type and a small second
one that both fit the part, the engine commits the part to the huge
stick (inventory order), although the small host is feasible and
leaves a strictly smaller leftover volume — so the committed pair does
not minimize leftover volume over all feasible (host, orientation)
pairs. -/
theorem c3_best_fit_counterexample :
    (optimize_cutting_plan exBestFitItems exBestFitParts exBestFitParams).stick_plans.map
        (fun s => (s.inventory_name,
          s.segments.map (fun seg => seg.cuts.map (fun c => c.part_key))))
      = [("big", [["a"]])] ∧
    feasibleCand exBestFitParams ⟨"small", ⟨60, 60, 30⟩, 1, none, none⟩ 60
      ⟨50, 50, 20⟩ = true ∧
    dimsVolume ⟨60, 60, 30⟩ - dimsVolume ⟨50, 50, 20⟩ <
      dimsVolume ⟨1000, 200, 100⟩ - dimsVolume ⟨50, 50, 20⟩ :=
  ⟨by decide, by decide, by decide⟩

/-- C3 amended: the engine does not score (host, orientation) pairs;
for the current host it commits the first orientation in enumeration
order that passes the feasibility test: whenever `pickDims` returns
`d`, `d` is a feasible candidate and every candidate listed before it
is infeasible. -/
theorem c3_first_feasible (params : CuttingParameters) (item : InventoryItem)
    (remaining_length : ℚ) (part : PartRequirement) (d : Dimension3D)
    (h : pickDims params item remaining_length part = some d) :
    firstFeasiblePick params item remaining_length part d :=
  find?_first _ _ _ h

/-- C3 witness: the first-feasible characterization at a concrete
pick. -/
theorem c3_first_feasible_witness :
    pickDims exBestFitParams ⟨"big", ⟨1000, 200, 100⟩, 1, none, none⟩ 1000
        ⟨"a", "a", "wood", ⟨50, 50, 20⟩, 1, false, false, false, true, 0⟩
      = some ⟨50, 50, 20⟩ ∧
    firstFeasiblePick exBestFitParams ⟨"big", ⟨1000, 200, 100⟩, 1, none, none⟩ 1000
      ⟨"a", "a", "wood", ⟨50, 50, 20⟩, 1, false, false, false, true, 0⟩ ⟨50, 50, 20⟩ :=
  ⟨by decide, c3_first_feasible _ _ _ _ _ (by decide)⟩

/-- C6 counterexample: with keep threshold 60 on a 100×50×20 stick, the
run records the trailing offcut 70×50×20, whose width axis 50 is
strictly below the threshold — refuting that every axis of a recorded
offcut is at least `min_offcut_keep`. -/
theorem c6_offcut_counterexample :
    (optimize_cutting_plan exOffcutItems exOffcutParts exOffcutParams).stick_plans.map
        (fun s => s.segments.map (fun seg => seg.offcuts.map (fun o => o.dims_mm)))
      = [[[], [⟨70, 50, 20⟩]]] ∧
    exOffcutParams.min_offcut_keep_mm = 60 ∧
    ¬((60 : ℚ) ≤ 50) :=
  ⟨by decide, by decide, by decide⟩

/-- C6 amended: the keep threshold is checked on the split axis only.
Every offcut recorded by a run either is a trailing-length offcut whose
length is at least `min_offcut_keep`, or is a width strip whose
pre-kerf width (stored width plus kerf) is at least `min_offcut_keep`;
the other axes are not checked against the threshold. -/
theorem c6_offcut_threshold (inventory : List InventoryItem)
    (required_parts : List PartRequirement) (params : CuttingParameters) :
    ∀ sp ∈ (optimize_cutting_plan inventory required_parts params).stick_plans,
      ∀ seg ∈ sp.segments, ∀ oc ∈ seg.offcuts, offcutOK params oc := by
  intro sp hsp
  exact itemsLoop_offcutOK params (demandOrder required_parts) inventory _ sp hsp

/-- C6 witness: the split-axis threshold theorem applied to a concrete
run that records one trailing offcut. -/
theorem c6_offcut_threshold_witness :
    (⟨"s", 1, ⟨100, 50, 20⟩, [⟨0, 0, [], [⟨⟨100, 50, 20⟩, (0, 0, 0)⟩]⟩]⟩ : StickPlan) ∈
        (optimize_cutting_plan exOffcutItems exTrailParts exOffcutParams).stick_plans ∧
    (⟨0, 0, [], [⟨⟨100, 50, 20⟩, (0, 0, 0)⟩]⟩ : LengthSegmentPlan) ∈
        ([⟨0, 0, [], [⟨⟨100, 50, 20⟩, (0, 0, 0)⟩]⟩] : List LengthSegmentPlan) ∧
    (⟨⟨100, 50, 20⟩, (0, 0, 0)⟩ : Offcut) ∈ ([⟨⟨100, 50, 20⟩, (0, 0, 0)⟩] : List Offcut) ∧
    offcutOK exOffcutParams ⟨⟨100, 50, 20⟩, (0, 0, 0)⟩ :=
  ⟨by decide, by decide, by decide,
    c6_offcut_threshold exOffcutItems exTrailParts exOffcutParams
      ⟨"s", 1, ⟨100, 50, 20⟩, [⟨0, 0, [], [⟨⟨100, 50, 20⟩, (0, 0, 0)⟩]⟩]⟩ (by decide)
      ⟨0, 0, [], [⟨⟨100, 50, 20⟩, (0, 0, 0)⟩]⟩ (by decide)
      ⟨⟨100, 50, 20⟩, (0, 0, 0)⟩ (by decide)⟩

/-- C2 (code-bug evidence): the spec's own worked example — one
2400×175×90 stick, part 1200×100×20 with quantity 2, kerf 3.  The spec
says only one piece is placed (cursor 1203 + 1203 would exceed 2400)
and one goes missing; the code's fit test
`remaining_length + kerf < cand.length` accepts the second piece at
1197mm remaining, places both, and the per-stick sum of
`piece.length + kerf` reaches 2406, exceeding the 2400mm stick. -/
theorem c2_kerf_overrun_eval :
    (optimize_cutting_plan exKerfItems exKerfParts exKerfParams).total_cuts = 2 ∧
    (optimize_cutting_plan exKerfItems exKerfParts exKerfParams).summary_by_part
      = [("plank", 2, 2)] ∧
    stickLenKerfSums exKerfParams
        (optimize_cutting_plan exKerfItems exKerfParts exKerfParams) = [2406] ∧
    exKerfItems.map (fun i => i.dimensions_mm.length_mm) = [2400] ∧
    (2400 : ℚ) < 2406 :=
  ⟨by decide, by decide, by decide, by decide, by decide⟩

/-- C8 counterexample: with an empty inventory no stock volume is
consumed; the code then reports `waste_percent = 0`, not
`100 − utilization_percent = 100` as the claim's formula requires. -/
theorem c8_waste_counterexample :
    (optimize_cutting_plan [] exOffcutParts exOffcutParams).utilization_percent = 0 ∧
    (optimize_cutting_plan [] exOffcutParts exOffcutParams).waste_percent = 0 ∧
    (optimize_cutting_plan [] exOffcutParts exOffcutParams).waste_percent ≠
      100 - (optimize_cutting_plan [] exOffcutParts exOffcutParams).utilization_percent :=
  ⟨by decide, by decide, by decide⟩

/-- C9 counterexample: the dataclasses perform no validation, so an
inventory item with negative dimensions and negative quantity and a
part with non-positive dimensions and negative quantity are accepted
and flow into `optimize_cutting_plan`, which runs normally and returns
a result — construction never fails before the placement loop. -/
theorem c9_invalid_accepted :
    optimize_cutting_plan exInvalidItems exInvalidParts exInvalidParams =
      ⟨[], 0, 0, 0, [("p", 0, -2)]⟩ := by
  decide

/-- C8 amended: `utilization_percent` is the total placed piece volume
over the total volume of the processed sticks times 100 when that
stock volume is positive, and 0 otherwise; `waste_percent` is
`100 − utilization_percent` when that stock volume is positive, and 0
(not 100) otherwise. -/
theorem c8_aggregation (inventory : List InventoryItem)
    (required_parts : List PartRequirement) (params : CuttingParameters) :
    (optimize_cutting_plan inventory required_parts params).utilization_percent
      = (if 0 < plansStockVolume (optimize_cutting_plan inventory required_parts
            params).stick_plans then
          plansCutVolume (optimize_cutting_plan inventory required_parts params).stick_plans /
            plansStockVolume (optimize_cutting_plan inventory required_parts
              params).stick_plans * 100
        else 0) ∧
    (optimize_cutting_plan inventory required_parts params).waste_percent
      = (if 0 < plansStockVolume (optimize_cutting_plan inventory required_parts
            params).stick_plans then
          100 - (optimize_cutting_plan inventory required_parts params).utilization_percent
        else 0) := by
  rcases itemsLoop_volumes params (demandOrder required_parts) inventory
      ⟨required_parts.foldl (fun d p => dictInsert d p.key p.quantity_total) [], 0, 0⟩
    with ⟨h1, h2⟩
  simp only [optimize_cutting_plan, runEngine] at h1 h2 ⊢
  rw [h1, h2]
  simp

/-- C9 amended: no validation happens at construction (the dataclasses
accept any dimension and quantity values), and such values flow into
`optimize_cutting_plan`, which still runs to completion: an inventory
consisting of one item with non-positive quantity contributes no
sticks, no cuts, and zero utilization and waste, whatever its
dimensions and whatever the part list. -/
theorem c9_no_validation (item : InventoryItem)
    (required_parts : List PartRequirement) (params : CuttingParameters)
    (h : item.quantity ≤ 0) :
    (optimize_cutting_plan [item] required_parts params).stick_plans = [] ∧
    (optimize_cutting_plan [item] required_parts params).total_cuts = 0 ∧
    (optimize_cutting_plan [item] required_parts params).utilization_percent = 0 ∧
    (optimize_cutting_plan [item] required_parts params).waste_percent = 0 := by
  have hq : item.quantity.toNat = 0 := Int.toNat_of_nonpos h
  simp only [optimize_cutting_plan, runEngine, itemsLoop, runItem, hq]
  by_cases hdone : allDone (⟨required_parts.foldl
      (fun d p => dictInsert d p.key p.quantity_total) [], 0, 0⟩ :
        LoopState).required_left = true
  · simp [itemsLoop, runItem, hq, hdone]
  · simp [itemsLoop, runItem, hq, hdone]

/-- C9 witness: the no-validation theorem applied to the concrete
invalid inventory item with quantity −5 and dimensions −1×−2×−3. -/
theorem c9_no_validation_witness :
    ((-5 : ℤ) ≤ 0) ∧
    ((optimize_cutting_plan exInvalidItems exInvalidParts exInvalidParams).stick_plans = [] ∧
     (optimize_cutting_plan exInvalidItems exInvalidParts exInvalidParams).total_cuts = 0 ∧
     (optimize_cutting_plan exInvalidItems exInvalidParts
        exInvalidParams).utilization_percent = 0 ∧
     (optimize_cutting_plan exInvalidItems exInvalidParts exInvalidParams).waste_percent = 0) :=
  ⟨by decide,
    c9_no_validation ⟨"bad", ⟨-1, -2, -3⟩, -5, none, none⟩ exInvalidParts exInvalidParams
      (by decide)⟩

/-- C5 counterexample: part `a` leaves the 100×117×50 width-strip
offcut on the "host" stick; that recorded offcut fits part `b` under
the run's tolerance, yet the engine cuts `b` from the fresh "fresh"
stick — the offcut pool is never consulted, so a fresh stock unit is
consumed while a feasible pooled offcut exists. -/
theorem c5_no_offcut_reuse_counterexample :
    (optimize_cutting_plan exReuseItems exReuseParts exReuseParams).stick_plans.map
        (fun s => (s.inventory_name,
          s.segments.map (fun seg =>
            (seg.cuts.map (fun c => c.part_key),
             seg.offcuts.map (fun o => o.dims_mm)))))
      = [("host", [(["a"], [⟨100, 117, 50⟩])]), ("fresh", [(["b"], [])])] ∧
    fits ⟨100, 100, 50⟩ ⟨100, 117, 50⟩ exReuseParams.tolerance = true :=
  ⟨by decide, by decide⟩

/-- C5 amended: the engine records offcuts for reporting only and
never queries or consumes them; every placement is on a fresh stock
unit.  Consequently the keep threshold `min_offcut_keep` — the only
parameter governing offcut recording — has no influence on anything
except the recorded offcut lists: two runs differing only in it agree
on all placements, counters, utilization, waste and summary. -/
theorem c5_offcuts_no_influence (inventory : List InventoryItem)
    (required_parts : List PartRequirement) (kerf : ℚ) (m1 m2 : ℚ)
    (tol : Tolerance) (pri : String) :
    stripResult (optimize_cutting_plan inventory required_parts ⟨kerf, m1, tol, pri⟩)
      = stripResult (optimize_cutting_plan inventory required_parts ⟨kerf, m2, tol, pri⟩) := by
  rcases @itemsLoop_strip ⟨kerf, m1, tol, pri⟩ ⟨kerf, m2, tol, pri⟩
      rfl rfl (demandOrder required_parts) inventory
      ⟨required_parts.foldl (fun d p => dictInsert d p.key p.quantity_total) [], 0, 0⟩
    with ⟨h1, h2, h3⟩
  simp only [optimize_cutting_plan, runEngine, stripResult]
  rw [h1, h2, h3]

/-- C7 counterexample: on two same-priority parts whose name order
(`a` before `b`) disagrees with their volume order (`b` has the larger
volume), the engine's processing order is by name, while the order the
claim asserts (priority desc, volume desc, name asc) puts `b` first —
so the claim's sort description does not match the engine. -/
theorem c7_order_counterexample :
    (demandOrder exOrderParts).map (fun p => p.key) = ["a", "b"] ∧
    (specDemandOrder exOrderParts).map (fun p => p.key) = ["b", "a"] ∧
    (demandOrder exOrderParts).map (fun p => p.key) ≠
      (specDemandOrder exOrderParts).map (fun p => p.key) := by
  refine ⟨by decide, by decide, by decide⟩

/-- C7 amended: the engine's processing order is deterministic and is
obtained by sorting on priority descending with ties broken by name
ascending lexicographically; part volume is not a sort key.  The order
is a permutation of the input and is sorted for that comparison. -/
theorem c7_demand_order (parts : List PartRequirement) :
    (demandOrder parts).Perm parts ∧
    (demandOrder parts).Pairwise (fun p q =>
      q.priority < p.priority ∨
      (p.priority = q.priority ∧ pyStrLe p.name.data q.name.data = true)) := by
  refine ⟨stableSort_perm _ parts, ?_⟩
  have h := stableSort_pairwise sortLE sortLE_total sortLE_trans parts
  refine h.imp ?_
  intro a b hab
  simpa [sortLE, Bool.or_eq_true, Bool.and_eq_true, decide_eq_true_eq] using hab

/-- C10: the engine never mutates its arguments.  In the transcription
where the argument objects (inventory, parts, parameters) are threaded
through every loop step, the environment returned at the end of a run
is the one passed in; a second run on the objects left by the first
returns the same result; and the threaded engine computes exactly
`optimize_cutting_plan` — all mutable run state is local. -/
theorem c10_no_argument_mutation (e : EngineEnv) :
    (optimize_cutting_planT e).2 = e ∧
    (optimize_cutting_planT ((optimize_cutting_planT e).2)).1
      = (optimize_cutting_planT e).1 ∧
    (optimize_cutting_planT e).1
      = optimize_cutting_plan e.inventory e.required_parts e.params := by
  rw [optimizeT_eq]
  exact ⟨rfl, by rw [optimizeT_eq], rfl⟩

end Guillotine
